import Mathlib

/-!
Shallow embedding of the FlexCAN driver (`src/can.rs`) of the s32k144evb
board-support crate, together with proofs of the specification's claims
about it.

Conventions of the embedding:
* Machine integers (`u8`, `u16`, `u32`) are modelled as `Nat`; wherever the
  Rust code truncates (casts, register-field writes) the model applies the
  corresponding `% 2^w` explicitly.
* The `bit_field` crate's `get_bits(a..b)` / `set_bits(a..b, v)` operate on
  the half-open bit range `[a, b)`; they are modelled arithmetically by
  `getBits` / `setBits` below.  `set_bits` asserts that the value fits in the
  range; the model masks instead, which agrees on every call the driver makes
  (all written values fit their ranges for well-formed inputs).
* Fallible paths are explicit: a Rust `panic!` / failed `assert!` / array
  out-of-bounds / `unwrap` is the `Res.fatal` outcome, a returned `Err` is
  `Res.err`, and a busy-wait loop that can never make progress against the
  pure register state is `Res.hangs`.
* The peripheral register block is an explicit state value threaded through
  every operation; `Res.ok` and `Res.err` carry the register state at the
  moment the function returns, so "returns without mutating any register"
  is the statement that the carried state equals the input state.
-/

/-- Bits `lo..hi` (half-open, `hi` exclusive) of `x`, as in
`bit_field::BitField::get_bits(lo..hi)`. -/
def getBits (x lo hi : Nat) : Nat := (x / 2 ^ lo) % 2 ^ (hi - lo)

/-- Replace bits `lo..hi` (half-open) of `x` by `v`, as in
`bit_field::BitField::set_bits(lo..hi, v)` (the crate asserts `v` fits in
`hi - lo` bits; the model masks `v`, which agrees whenever the assert holds). -/
def setBits (x lo hi v : Nat) : Nat :=
  x % 2 ^ lo + 2 ^ lo * (v % 2 ^ (hi - lo) + 2 ^ (hi - lo) * (x / 2 ^ hi))

/-- Bit `i` of `x`, as in `bit_field::BitField::get_bit(i)`. -/
def getBit (x i : Nat) : Bool := (x / 2 ^ i) % 2 == 1

/-- Set bit `i` of `x` to `b`, as in `bit_field::BitField::set_bit(i, b)`. -/
def setBit (x i : Nat) (b : Bool) : Nat := setBits x i (i + 1) (if b then 1 else 0)

/-! ## Message-buffer status code (`MessageBufferCode` and its `From` impls) -/

/-- `ReceiveBufferState` of `src/can.rs`. -/
inductive ReceiveBufferState where
  | inactive
  | empty
  | full
  | overrun
  | ranswer
  deriving DecidableEq

/-- `ReceiveBufferCode` of `src/can.rs`: a receive state plus the busy flag. -/
structure ReceiveBufferCode where
  state : ReceiveBufferState
  busy : Bool
  deriving DecidableEq

/-- `TransmitBufferState` of `src/can.rs`. -/
inductive TransmitBufferState where
  | inactive
  | abort
  | dataRemote
  | tanswer
  deriving DecidableEq

/-- `MessageBufferCode` of `src/can.rs`. -/
inductive MessageBufferCode where
  | receive (r : ReceiveBufferCode)
  | transmit (t : TransmitBufferState)
  deriving DecidableEq

/-- `impl From<MessageBufferCode> for u8` (`src/can.rs:262-280`): the 4-bit
hardware encoding of a message-buffer code. -/
def codeToU8 : MessageBufferCode → Nat
  | .receive r =>
    match r.state with
    | .inactive => getBits (setBits (setBit 0 0 r.busy) 1 4 0b000) 0 4
    | .empty => getBits (setBits (setBit 0 0 r.busy) 1 4 0b010) 0 4
    | .full => getBits (setBits (setBit 0 0 r.busy) 1 4 0b001) 0 4
    | .overrun => getBits (setBits (setBit 0 0 r.busy) 1 4 0b011) 0 4
    | .ranswer => getBits (setBits (setBit 0 0 r.busy) 1 4 0b101) 0 4
  | .transmit t =>
    match t with
    | .inactive => 0b1000
    | .abort => 0b1001
    | .dataRemote => 0b1100
    | .tanswer => 0b1110

/-- `impl From<u8> for MessageBufferCode` (`src/can.rs:282-302`).  The Rust
`From` impl panics on the patterns with no match arm; the model returns
`none` for exactly those patterns. -/
def codeFromU8 : Nat → Option MessageBufferCode
  | 0b1000 => some (.transmit .inactive)
  | 0b1001 => some (.transmit .abort)
  | 0b1100 => some (.transmit .dataRemote)
  | 0b1110 => some (.transmit .tanswer)
  | 0b0000 => some (.receive ⟨.inactive, false⟩)
  | 0b0001 => some (.receive ⟨.inactive, true⟩)
  | 0b0100 => some (.receive ⟨.empty, false⟩)
  | 0b0101 => some (.receive ⟨.empty, true⟩)
  | 0b0010 => some (.receive ⟨.full, false⟩)
  | 0b0011 => some (.receive ⟨.full, true⟩)
  | 0b0110 => some (.receive ⟨.overrun, false⟩)
  | 0b0111 => some (.receive ⟨.overrun, true⟩)
  | 0b1010 => some (.receive ⟨.ranswer, false⟩)
  | 0b1011 => some (.receive ⟨.ranswer, true⟩)
  | _ => none

/-! ## Bit-timing calculation (`Can::init`, `src/can.rs:44-62`) -/

/-- `presdiv = (source_frequency / can_frequency) / 25` (`src/can.rs:44`). -/
def presdivCalc (s c : Nat) : Nat := (s / c) / 25

/-- `tqs = (source_frequency / (presdiv + 1)) / can_frequency`
(`src/can.rs:45`). -/
def tqsCalc (s c : Nat) : Nat := (s / (presdivCalc s c + 1)) / c

/-- The `(pseg2, rjw)` table lookup on `tqs` (`src/can.rs:48-59`);
`none` is the `panic!` arm for `tqs` outside `[8, 26)`. -/
def pseg2rjw (t : Nat) : Option (Nat × Nat) :=
  if 8 ≤ t ∧ t < 10 then some (1, 1)
  else if 10 ≤ t ∧ t < 15 then some (3, 2)
  else if 15 ≤ t ∧ t < 20 then some (6, 2)
  else if 20 ≤ t ∧ t < 26 then some (7, 3)
  else none

/-- `pseg1 = ((tqs - (pseg2 + 1)) / 2) - 1` (`src/can.rs:61`).  The Rust
subtractions are on `u32` and cannot underflow for any `tqs` the table
accepts, so truncated `Nat` subtraction agrees there. -/
def pseg1Calc (t p2 : Nat) : Nat := (t - (p2 + 1)) / 2 - 1

/-- `propseg = tqs - (pseg2 + 1) - (pseg1 + 1) - 2` (`src/can.rs:62`). -/
def propsegCalc (t p2 p1 : Nat) : Nat := t - (p2 + 1) - (p1 + 1) - 2

/-- Decidable check that, for time-quanta count `t`, the table lookup
succeeds and the computed segments satisfy the driver's actual bit-time
identity `propseg + pseg1 + pseg2 + 4 = t`. -/
def timingOk (t : Nat) : Bool :=
  match pseg2rjw t with
  | some (p2, _) =>
    propsegCalc t p2 (pseg1Calc t p2) + pseg1Calc t p2 + p2 + 4 == t
  | none => false

/-! ## Identifier and frame model

The identifier/frame value types come from the external `embedded_types`
crate (re-exported by `src/can.rs`); they are modelled per the crate's
documented semantics, which the spec restates in its data model: a `BaseID`
is an 11-bit value, an `ExtendedID` a 29-bit value, a data frame carries up
to 8 payload bytes and a remote frame none.  `ID.raw` is the
`From<ID> for u32` conversion used by `frame.id().into()`. -/

/-- `embedded_types::can::ID`: base (11-bit) or extended (29-bit) CAN id. -/
inductive ID where
  | base (v : Nat)
  | extended (v : Nat)
  deriving DecidableEq

/-- The raw identifier value, as `u32::from(frame.id())`. -/
def ID.raw : ID → Nat
  | .base v => v
  | .extended v => v

/-- `embedded_types::can::DataFrame`: id plus payload bytes. -/
structure DataFrame where
  id : ID
  data : List Nat
  deriving DecidableEq

/-- `embedded_types::can::RemoteFrame`. -/
structure RemoteFrame where
  id : ID
  deriving DecidableEq

/-- `embedded_types::can::CanFrame`. -/
inductive CanFrame where
  | dataFrame (f : DataFrame)
  | remoteFrame (f : RemoteFrame)
  deriving DecidableEq

/-- `CanFrame::id()`. -/
def CanFrame.id : CanFrame → ID
  | .dataFrame f => f.id
  | .remoteFrame f => f.id

/-! ## Peripheral register state

The software-visible state of the `CAN0` register block, restricted to the
registers and fields the driver reads or writes.  `embedded_ram` has 128
32-bit words (32 mailboxes of 4 words); accesses are bounds-checked exactly
as Rust array indexing is.  Hardware acknowledgment bits (`lpmack`,
`frzack`, `softrst` self-clear) are modelled as responding instantly, so the
driver's ack busy-wait loops terminate immediately; those loops touch no
software-visible state. -/

structure RegisterBlock where
  /-- `embedded_ram`: word index `→` 32-bit value. -/
  ram : Nat → Nat
  /-- `iflag1` (write-1-to-clear interrupt flags). -/
  iflag1 : Nat
  /-- free-running timer (read-only for software). -/
  timer : Nat
  -- `mcr` fields
  mdis : Bool
  frz : Bool
  halt : Bool
  rfen : Bool
  srxdis : Bool
  irmq : Bool
  aen : Bool
  dma : Bool
  /-- `mcr.maxmb`, a 7-bit field. -/
  maxmb : Nat
  -- `ctrl1` fields
  clksrc : Bool
  presdiv : Nat
  pseg1 : Nat
  pseg2 : Nat
  propseg : Nat
  rjw : Nat
  lpb : Bool
  rxmgmask : Nat

/-- `CanError` of `src/can.rs`. -/
inductive CanError where
  | FreezeModeError
  | SettingsError
  | ConfigurationFailed
  | BusyMailboxWriteAttempted
  deriving DecidableEq

/-- `embedded_types::io::TransmitError` (only the variant the driver
produces). -/
inductive TransmitError where
  | BufferFull
  deriving DecidableEq

/-- `ReceiveError` of `src/can.rs`. -/
inductive ReceiveError where
  | MailboxEmpty
  | MailboxConfigurationError
  | MailboxNonExisting
  deriving DecidableEq

/-- The distinct Rust abort conditions (panics/asserts) reachable in the
modelled code. -/
inductive Fatal where
  /-- `%` / `/` with a zero divisor. -/
  | divideByZero
  /-- `panic!("there should be between 8 and 25 tqs in an bit")`. -/
  | tqsOutOfRange
  /-- `message_buffer_settings.len() as u8 - 1` underflow for `len % 256 = 0`. -/
  | maxmbUnderflow
  /-- `From<u8> for MessageBufferCode` on a reserved pattern. -/
  | reservedCode
  /-- `embedded_ram[i]` with `i ≥ 128`. -/
  | ramBounds
  /-- `bit_field` assert `bit < 32` in `iflag1.read().bits().get_bit(..)`. -/
  | bitIndexRange
  /-- the `.unwrap()` on `write_mailbox` inside `init`. -/
  | unwrapFailed
  deriving DecidableEq

/-- Outcome of a driver operation: normal return (with the register state at
return time), error return (likewise), Rust abort, or an infinite busy-wait
against the pure register state. -/
inductive Res (ε α : Type) where
  | ok (a : α) (st : RegisterBlock)
  | err (e : ε) (st : RegisterBlock)
  | fatal (f : Fatal)
  | hangs

/-- Sequencing of `Res` computations (state-passing bind). -/
def Res.then {ε α β : Type} : Res ε α → (α → RegisterBlock → Res ε β) → Res ε β
  | .ok a st, k => k a st
  | .err e st, _ => .err e st
  | .fatal f, _ => .fatal f
  | .hangs, _ => .hangs

/-- Bounds-checked read of `embedded_ram[i]`. -/
def ramRead {ε : Type} (st : RegisterBlock) (i : Nat) : Res ε Nat :=
  if i < 128 then .ok (st.ram i) st else .fatal .ramBounds

/-- Bounds-checked write of `embedded_ram[i]` (stored values are 32-bit). -/
def ramWrite {ε : Type} (st : RegisterBlock) (i v : Nat) : Res ε Unit :=
  if i < 128 then
    .ok () { st with ram := fun j => if j = i then v % 2 ^ 32 else st.ram j }
  else .fatal .ramBounds

/-- `MessageBufferCode::from(code)`: panics (fatal) on a reserved pattern. -/
def decodeCode {ε : Type} (c : Nat) (st : RegisterBlock) :
    Res ε MessageBufferCode :=
  match codeFromU8 c with
  | some m => .ok m st
  | none => .fatal .reservedCode

/-- `iflag1.write(|w| w.bits(1 << m))`: `iflag1` is write-1-to-clear, so the
driver's single-bit writes clear flag `m` and leave the rest unchanged. -/
def iflagClearBit (st : RegisterBlock) (m : Nat) : RegisterBlock :=
  { st with iflag1 := setBit st.iflag1 m false }

/-- Hardware completion event: the controller raises the interrupt flag of
mailbox `m`.  Modelled from the spec: the pending-interrupt flag of a
mailbox is set by the hardware when its transmission/reception finishes
(the driver only ever clears it). -/
def raiseFlag (st : RegisterBlock) (m : Nat) : RegisterBlock :=
  { st with iflag1 := setBit st.iflag1 m true }

/-! ## Mailbox header -/

/-- `MailboxHeader` of `src/can.rs`. -/
structure MailboxHeader where
  errorStateIndicator : Bool
  code : MessageBufferCode
  timeStamp : Nat
  priority : Nat
  deriving DecidableEq

/-- `MailboxHeader::default_transmit()`. -/
def MailboxHeader.defaultTransmit : MailboxHeader :=
  ⟨false, .transmit .inactive, 0, 0⟩

/-- `MailboxHeader::default_receive()`. -/
def MailboxHeader.defaultReceive : MailboxHeader :=
  ⟨false, .receive ⟨.empty, false⟩, 0, 0⟩

/-! ## Mailbox engine (`src/can.rs:385-578`) -/

/-- `read_mailbox_code` (`src/can.rs:385-391`).  The trailing free-running
timer read unlocks mailboxes in hardware and has no software-visible
effect. -/
def readMailboxCode {ε : Type} (st : RegisterBlock) (mailbox : Nat) :
    Res ε MessageBufferCode :=
  Res.then (ramRead st (mailbox * 4)) fun w st =>
  Res.then (decodeCode (getBits w 24 28) st) fun code st =>
  Res.ok code st

/-- `inactivate_mailbox` (`src/can.rs:413-420`). -/
def inactivateMailbox {ε : Type} (st : RegisterBlock) (mailbox : Nat) :
    Res ε Unit :=
  Res.then (ramRead st (mailbox * 4)) fun w st =>
  Res.then (decodeCode (getBits w 24 28) st) fun code st =>
  match code with
  | .transmit _ =>
    ramWrite st (mailbox * 4)
      (getBits (setBits 0 24 28 (codeToU8 (.transmit .inactive))) 0 32)
  | .receive _ =>
    ramWrite st (mailbox * 4)
      (getBits (setBits 0 24 28 (codeToU8 (.receive ⟨.inactive, false⟩))) 0 32)

/-- The payload-write loop of `write_mailbox` (`src/can.rs:471-478`): byte
`i` goes to bits `32-8*(1+i%4) .. 32-8*(i%4)` of word `start+2+i/4`,
read-modify-write. -/
def writeDataBytes {ε : Type} (sa : Nat) :
    RegisterBlock → Nat → List Nat → Res ε RegisterBlock
  | st, _, [] => .ok st st
  | st, i, b :: rest =>
    Res.then (ramRead st (sa + 2 + i / 4)) fun old st =>
    Res.then
      (ramWrite st (sa + 2 + i / 4)
        (setBits old (32 - 8 * (1 + i % 4)) (32 - 8 * (i % 4)) b)) fun _ st =>
    writeDataBytes sa st (i + 1) rest

/-- The post-check body of `write_mailbox` (`src/can.rs:444-502`): clear the
interrupt flag, write the ID word, the payload words, then the control and
status word (which arms the mailbox). -/
def writeMailboxArmed (st : RegisterBlock) (header : MailboxHeader)
    (frame : CanFrame) (mailbox : Nat) : Res CanError Unit :=
  let sa := mailbox * 4
  let st := iflagClearBit st mailbox
  let extendedId := match frame.id with
    | .base _ => false
    | .extended _ => true
  let idWord :=
    if extendedId then
      getBits (setBits (setBits 0 0 29 frame.id.raw) 29 32 header.priority) 0 32
    else
      getBits (setBits (setBits 0 18 29 frame.id.raw) 29 32 header.priority) 0 32
  Res.then (ramWrite st (sa + 1) idWord) fun _ st =>
  Res.then
    (match frame with
     | .dataFrame df =>
       Res.then (writeDataBytes sa st 0 df.data) fun _ st =>
       Res.ok df.data.length st
     | .remoteFrame _ => Res.ok 0 st) fun dataLength st =>
  let remoteFrame := match frame with
    | .dataFrame _ => false
    | .remoteFrame _ => true
  let c1 := setBit 0 31 false
  let c2 := setBit c1 29 header.errorStateIndicator
  let c3 := setBits c2 24 28 (codeToU8 header.code)
  let c4 := setBit c3 22 true
  let c5 := setBit c4 21 extendedId
  let c6 := setBit c5 20 remoteFrame
  let c7 := setBits c6 16 20 dataLength
  let c8 := setBits c7 0 15 header.timeStamp
  Res.then (ramWrite st sa (getBits c8 0 32)) fun _ st =>
  Res.ok () st

/-- `write_mailbox` (`src/can.rs:428-503`): refuse (error, no mutation) if
the current code is busy/occupied, otherwise arm the mailbox. -/
def writeMailbox (st : RegisterBlock) (header : MailboxHeader)
    (frame : CanFrame) (mailbox : Nat) : Res CanError Unit :=
  Res.then (ramRead st (mailbox * 4)) fun w st =>
  Res.then (decodeCode (getBits w 24 28) st) fun currentCode st =>
  match currentCode with
  | .transmit .dataRemote => .err .BusyMailboxWriteAttempted st
  | .transmit .tanswer => .err .BusyMailboxWriteAttempted st
  | .receive ⟨.empty, _⟩ => .err .BusyMailboxWriteAttempted st
  | .receive ⟨.overrun, _⟩ => .err .BusyMailboxWriteAttempted st
  | .receive ⟨.full, _⟩ => .err .BusyMailboxWriteAttempted st
  | .receive ⟨.ranswer, _⟩ => .err .BusyMailboxWriteAttempted st
  | _ => writeMailboxArmed st header frame mailbox

/-- The busy-retry loop of `read_mailbox` (`src/can.rs:530-536`): against a
pure register state a re-read returns the same word, so a busy receive code
spins forever; any other code falls through at once. -/
def busyGate {ε : Type} : MessageBufferCode → RegisterBlock → Res ε Unit
  | .receive r, st => if r.busy then .hangs else .ok () st
  | _, st => .ok () st

/-- The payload-read loop of `read_mailbox` (`src/can.rs:555-557`): byte `i`
comes from bits `32-8*(1+i%4) .. 32-8*(i%4)` of word `start+2+i/4`. -/
def readDataBytes {ε : Type} (st : RegisterBlock) (sa : Nat) :
    Nat → Nat → Res ε (List Nat)
  | _, 0 => .ok [] st
  | i, n + 1 =>
    Res.then (ramRead st (sa + 2 + i / 4)) fun w st =>
    Res.then (readDataBytes st sa (i + 1) n) fun rest st =>
    .ok (getBits w (32 - 8 * (1 + i % 4)) (32 - 8 * (i % 4)) :: rest) st

/-- `read_mailbox` (`src/can.rs:521-578`). -/
def readMailbox {ε : Type} (st : RegisterBlock) (mailbox : Nat) :
    Res ε (MailboxHeader × CanFrame) :=
  let sa := mailbox * 4
  Res.then (ramRead st sa) fun cs st =>
  Res.then (decodeCode (getBits cs 24 28) st) fun code st =>
  Res.then (busyGate code st) fun _ st =>
  let extendedId := getBit cs 21
  Res.then (ramRead st (sa + 1)) fun w1 st =>
  let id := if extendedId then ID.extended (getBits w1 0 28)
            else ID.base (getBits w1 18 28)
  let dlc := getBits cs 16 20
  let remoteFrame := getBit cs 20
  Res.then
    (if remoteFrame then Res.ok (CanFrame.remoteFrame ⟨id⟩) st
     else
       Res.then (readDataBytes st sa 0 dlc) fun ds st =>
       Res.ok (CanFrame.dataFrame ⟨id, ds⟩) st) fun frame st =>
  Res.then (ramRead st (sa + 1)) fun w1b st =>
  let priority := getBits w1b 29 32
  Res.then (decodeCode (getBits cs 24 28) st) fun headerCode st =>
  let header : MailboxHeader :=
    ⟨getBit cs 29, headerCode, getBits cs 0 15, priority⟩
  -- 4. ack the flag (write-1-to-clear); 6. timer read unlocks the mailbox
  let st := iflagClearBit st mailbox
  Res.ok (header, frame) st

/-- The header `Can::transmit` arms mailboxes with (`src/can.rs:121-122`). -/
def transmitHeader : MailboxHeader :=
  { MailboxHeader.defaultTransmit with code := .transmit .dataRemote }

/-- The mailbox scan of `Can::transmit` (`src/can.rs:126-133`): `i` is the
next index, the last argument the number of indices still to try. -/
def transmitScan (frame : CanFrame) :
    RegisterBlock → Nat → Nat → Res TransmitError Unit
  | st, _, 0 => .err .BufferFull st
  | st, i, n + 1 =>
    Res.then (readMailboxCode st i) fun code st =>
    if code = MessageBufferCode.transmit .inactive then
      match writeMailbox st transmitHeader frame i with
      | .ok _ st => .ok () st
      | .err _ st => transmitScan frame st (i + 1) n
      | .fatal f => .fatal f
      | .hangs => .hangs
    else transmitScan frame st (i + 1) n

/-- `Can::transmit` (`src/can.rs:120-135`): scan mailboxes `0 ..= maxmb` for
the first with code `Transmit(Inactive)` and arm it; `BufferFull` if none. -/
def transmit (st : RegisterBlock) (frame : CanFrame) : Res TransmitError Unit :=
  transmitScan frame st 0 (st.maxmb + 1)

/-- `Can::receive` (`src/can.rs:137-147`): return `MailboxEmpty` if the
mailbox's interrupt flag is clear, otherwise read the mailbox out.  The
Rust code reads flag bit `mailbox as u8`, and `bit_field` asserts the bit
index is below 32. -/
def receive (st : RegisterBlock) (mailbox : Nat) : Res ReceiveError CanFrame :=
  if mailbox % 256 < 32 then
    let newMessage := getBit st.iflag1 (mailbox % 256)
    if !newMessage then .err .MailboxEmpty st
    else
      Res.then (readMailbox st mailbox) fun hf st =>
      Res.ok hf.2 st
  else .fatal .bitIndexRange

/-! ## Controller initialisation (`Can::init`, `src/can.rs:32-118`) -/

/-- `ClockSource` of `src/can.rs`. -/
inductive ClockSource where
  | peripheral
  | oscilator
  deriving DecidableEq

/-- `impl From<ClockSource> for bool`. -/
def ClockSource.toBool : ClockSource → Bool
  | .peripheral => true
  | .oscilator => false

/-- `CanSettings` of `src/can.rs`. -/
structure CanSettings where
  warningInterrupt : Bool
  selfReception : Bool
  individualMasking : Bool
  loopbackMode : Bool
  clockSource : ClockSource
  sourceFrequency : Nat
  canFrequency : Nat

/-- `CanSettings::default()`. -/
def CanSettings.default : CanSettings :=
  ⟨false, true, false, false, .oscilator, 0, 1000000⟩

/-- `reset` (`src/can.rs:349-359`).  Each acknowledgment busy-wait exits at
once under the instant-ack hardware model; the soft-reset pulse self-clears
and its register-resetting side effects touch no field a later `init` step
does not overwrite, so they are not tracked. -/
def reset (can : RegisterBlock) : RegisterBlock :=
  let can := { can with mdis := true }
  let can := { can with clksrc := true }
  let can := { can with mdis := false }
  { can with mdis := true }

/-- `enable` (`src/can.rs:344-347`). -/
def enable (can : RegisterBlock) : RegisterBlock :=
  { can with mdis := false }

/-- `enter_freeze` (`src/can.rs:361-367`). -/
def enterFreeze (can : RegisterBlock) : RegisterBlock :=
  { can with frz := true, halt := true }

/-- `leave_freeze` (`src/can.rs:369-375`). -/
def leaveFreeze (can : RegisterBlock) : RegisterBlock :=
  { can with halt := false, frz := false }

/-- The `maxmb` value `init` writes: `message_buffer_settings.len() as u8 - 1`
(`src/can.rs:81`).  The `as u8` cast wraps modulo 256 and the `u8`
subtraction underflows (Rust debug abort, `none`) exactly when the wrapped
length is zero. -/
def maxmbField (len : Nat) : Option Nat :=
  if len % 256 = 0 then none else some (len % 256 - 1)

/-- The filler frame `init` writes into every configured mailbox
(`src/can.rs:105`): an extended data frame with id 0 and no payload. -/
def filterFrame : CanFrame := .dataFrame ⟨.extended 0, []⟩

/-- The per-mailbox configuration loop of `init` (`src/can.rs:107-110`):
inactivate, then `write_mailbox(..).unwrap()`. -/
def initMailboxLoop (filter : CanFrame) :
    RegisterBlock → Nat → List MailboxHeader → Res CanError Unit
  | can, _, [] => .ok () can
  | can, i, h :: rest =>
    match inactivateMailbox can i with
    | .ok _ can =>
      match writeMailbox can h filter i with
      | .ok _ can => initMailboxLoop filter can (i + 1) rest
      | .err _ _ => .fatal .unwrapFailed
      | .fatal f => .fatal f
      | .hangs => .hangs
    | .err e st => .err e st
    | .fatal f => .fatal f
    | .hangs => .hangs

/-- `Can::init` (`src/can.rs:32-118`): validate the clock ratio, derive the
bit timing, run the reset/enable/freeze sequence, write the global and
timing configuration, set the accept-all mask, initialise every configured
mailbox, and leave freeze mode.  In Rust a zero `can_frequency` aborts at
the `%` itself, before either `SettingsError` check can fire. -/
def init (settings : CanSettings) (mbs : List MailboxHeader)
    (can : RegisterBlock) : Res CanError Unit :=
  if settings.canFrequency = 0 then .fatal .divideByZero
  else if settings.sourceFrequency % settings.canFrequency ≠ 0 then
    .err .SettingsError can
  else if settings.sourceFrequency < settings.canFrequency * 5 then
    .err .SettingsError can
  else
    let presdiv := presdivCalc settings.sourceFrequency settings.canFrequency
    let tqs := tqsCalc settings.sourceFrequency settings.canFrequency
    match pseg2rjw tqs with
    | none => .fatal .tqsOutOfRange
    | some (p2, rjwVal) =>
      let p1 := pseg1Calc tqs p2
      let prop := propsegCalc tqs p2 p1
      let can := reset can
      let can := { can with clksrc := settings.clockSource.toBool }
      let can := enable can
      let can := enterFreeze can
      match maxmbField mbs.length with
      | none => .fatal .maxmbUnderflow
      | some mm =>
        let can :=
          { can with rfen := false, srxdis := !settings.selfReception,
                     irmq := settings.individualMasking, aen := true,
                     dma := false, maxmb := mm % 128 }
        let can :=
          { can with presdiv := presdiv % 256,
                     pseg1 := p1 % 256 % 8, pseg2 := p2 % 256 % 8,
                     propseg := prop % 256 % 8, rjw := rjwVal % 256 % 4,
                     lpb := settings.loopbackMode }
        let can := { can with rxmgmask := 0 }
        match initMailboxLoop filterFrame can 0 mbs with
        | .ok _ can => .ok () (leaveFreeze can)
        | .err e st => .err e st
        | .fatal f => .fatal f
        | .hangs => .hangs

/-! ## Concrete register states used by the witnesses -/

/-- A register block with everything zeroed: every mailbox code word decodes
to `Receive(Inactive, busy: false)`. -/
def zeroRegs : RegisterBlock :=
  { ram := fun _ => 0, iflag1 := 0, timer := 0,
    mdis := false, frz := false, halt := false, rfen := false,
    srxdis := false, irmq := false, aen := false, dma := false,
    maxmb := 0, clksrc := false, presdiv := 0, pseg1 := 0, pseg2 := 0,
    propseg := 0, rjw := 0, lpb := false, rxmgmask := 0 }

/-- All 32 mailboxes carry code `Transmit(Inactive)` (`0b1000`), `maxmb`
covers all of them. -/
def allInactiveRegs : RegisterBlock :=
  { zeroRegs with
    ram := fun j => if j % 4 = 0 ∧ j < 128 then 0x08000000 else 0,
    maxmb := 31 }

/-- All 32 mailboxes carry code `Transmit(DataRemote)` (`0b1100`), `maxmb`
covers all of them. -/
def allPendingRegs : RegisterBlock :=
  { zeroRegs with
    ram := fun j => if j % 4 = 0 ∧ j < 128 then 0x0C000000 else 0,
    maxmb := 31 }

/-! ## Helper lemmas on the bit-timing arithmetic -/

/-- With an exact clock ratio `k = s / c`, the two-stage division computing
`tqs` collapses to `k / (k / 25 + 1)`. -/
theorem tqsCalc_eq_ratio (s c : Nat) (hc : 0 < c) (hmod : s % c = 0) :
    tqsCalc s c = (s / c) / ((s / c) / 25 + 1) := by
  obtain ⟨k, hk⟩ := Nat.dvd_of_mod_eq_zero hmod
  subst hk
  unfold tqsCalc presdivCalc
  rw [Nat.mul_div_cancel_left _ hc, Nat.div_div_eq_div_mul, Nat.mul_comm c k,
    Nat.mul_div_mul_right _ _ hc]

/-- For a clock ratio of at least 8 the collapsed quotient lands in the
datasheet window `[8, 26)`. -/
theorem ratio_tq_bounds (k : Nat) (h8 : 8 ≤ k) :
    8 ≤ k / (k / 25 + 1) ∧ k / (k / 25 + 1) < 26 := by
  rcases Nat.lt_or_ge k 25 with hlt | hge
  · rw [Nat.div_eq_of_lt hlt]
    simp only [Nat.zero_add, Nat.div_one]
    exact ⟨h8, by omega⟩
  · have hp1 : 1 ≤ k / 25 := (Nat.one_le_div_iff (by norm_num)).mpr hge
    have hdm := Nat.div_add_mod k 25
    have hmlt : k % 25 < 25 := Nat.mod_lt _ (by norm_num)
    constructor
    · rw [Nat.le_div_iff_mul_le (Nat.succ_pos _)]
      omega
    · rw [Nat.div_lt_iff_lt_mul (Nat.succ_pos _)]
      omega

/-- Under divisibility and a ratio of at least 8, `tqs` is in `[8, 26)`. -/
theorem tqs_in_range (s c : Nat) (hc : 0 < c) (hmod : s % c = 0)
    (h8 : 8 * c ≤ s) : 8 ≤ tqsCalc s c ∧ tqsCalc s c < 26 := by
  have hk : 8 ≤ s / c := (Nat.le_div_iff_mul_le hc).mpr h8
  rw [tqsCalc_eq_ratio s c hc hmod]
  exact ratio_tq_bounds (s / c) hk

/-- Exhaustive check of the driver's bit-time identity over the window. -/
theorem timingOk_true (t : Nat) : t < 26 → 8 ≤ t → timingOk t = true := by
  revert t
  decide

/-- For `tqs` inside `[8, 26)` the table lookup succeeds and the computed
segments satisfy `propseg + pseg1 + pseg2 + 4 = tqs`. -/
theorem timing_identity (t : Nat) (h8 : 8 ≤ t) (hlt : t < 26) :
    ∃ p2 rjwVal, pseg2rjw t = some (p2, rjwVal) ∧
      propsegCalc t p2 (pseg1Calc t p2) + pseg1Calc t p2 + p2 + 4 = t := by
  have hok : timingOk t = true := timingOk_true t hlt h8
  unfold timingOk at hok
  cases hpr : pseg2rjw t with
  | none => rw [hpr] at hok; cases hok
  | some pr =>
    obtain ⟨p2, r⟩ := pr
    rw [hpr] at hok
    simp only [beq_iff_eq] at hok
    exact ⟨p2, r, rfl, hok⟩

/-! ## Claim C1 -/

/-- C1 (counterexample): the claim as stated fails on the code.  At
`(source, can) = (8000000, 1000000)` both preconditions hold, `tqs = 8`,
the table yields `(pseg2, rjw) = (1, 1)`, and the computed segments give
`propseg + pseg1 + pseg2 + 3 = 7 ≠ 8 = tqs` (the driver's identity has
`+ 4`, counting the sync quantum and the three `+1`-encoded segments).  At
`(source, can) = (5, 1)` both preconditions also hold, yet `tqs = 5` lies
outside `[8, 26)` and the table lookup is the `panic!` arm. -/
theorem c1_counterexample :
    (8000000 % 1000000 = 0 ∧ 5 * 1000000 ≤ 8000000 ∧
      tqsCalc 8000000 1000000 = 8 ∧ pseg2rjw 8 = some (1, 1) ∧
      propsegCalc 8 1 (pseg1Calc 8 1) + pseg1Calc 8 1 + 1 + 3 ≠ 8) ∧
    (5 % 1 = 0 ∧ 5 * 1 ≤ 5 ∧ tqsCalc 5 1 = 5 ∧
      ¬(8 ≤ tqsCalc 5 1 ∧ tqsCalc 5 1 < 26) ∧ pseg2rjw (tqsCalc 5 1) = none) := by
  decide

/-- C1 (amended): for every pair with `can_frequency > 0`,
`source_frequency % can_frequency == 0` and
`source_frequency ≥ 8 * can_frequency`, the table lookup succeeds and the
computed values satisfy `propseg + pseg1 + pseg2 + 4 == tqs` with
`tqs ∈ [8, 26)`. -/
theorem c1_bit_timing (s c : Nat) (hc : 0 < c) (hmod : s % c = 0)
    (h8 : 8 * c ≤ s) :
    ∃ p2 rjwVal, pseg2rjw (tqsCalc s c) = some (p2, rjwVal) ∧
      propsegCalc (tqsCalc s c) p2 (pseg1Calc (tqsCalc s c) p2) +
        pseg1Calc (tqsCalc s c) p2 + p2 + 4 = tqsCalc s c ∧
      8 ≤ tqsCalc s c ∧ tqsCalc s c < 26 := by
  obtain ⟨hlo, hhi⟩ := tqs_in_range s c hc hmod h8
  obtain ⟨p2, r, hpr, hsum⟩ := timing_identity (tqsCalc s c) hlo hhi
  exact ⟨p2, r, hpr, hsum, hlo, hhi⟩

/-- C1 witness: the amended statement instantiated at
`(source, can) = (8000000, 1000000)`. -/
theorem c1_bit_timing_witness :
    0 < 1000000 ∧ 8000000 % 1000000 = 0 ∧ 8 * 1000000 ≤ 8000000 ∧
    (∃ p2 rjwVal, pseg2rjw (tqsCalc 8000000 1000000) = some (p2, rjwVal) ∧
      propsegCalc (tqsCalc 8000000 1000000) p2
          (pseg1Calc (tqsCalc 8000000 1000000) p2) +
        pseg1Calc (tqsCalc 8000000 1000000) p2 + p2 + 4 =
        tqsCalc 8000000 1000000 ∧
      8 ≤ tqsCalc 8000000 1000000 ∧ tqsCalc 8000000 1000000 < 26) :=
  ⟨by decide, by decide, by decide,
    c1_bit_timing 8000000 1000000 (by decide) (by decide) (by decide)⟩

/-! ## Claim C3 -/

/-- C3 (counterexample): decode has not one but two reserved patterns —
both `0b1101` and `0b1111` hit the `panic!` arm of
`impl From<u8> for MessageBufferCode`. -/
theorem c3_counterexample :
    codeFromU8 0b1101 = none ∧ codeFromU8 0b1111 = none ∧
    (0b1101 : Nat) ≠ 0b1111 := by
  decide

/-- C3 (amended): decode is total and unambiguous over the 16 possible
4-bit patterns except exactly the two reserved patterns `0b1101` and
`0b1111`, each of which is a fatal decode error. -/
theorem c3_decode_reserved (c : Nat) (hc : c < 16) :
    (codeFromU8 c).isSome = true ↔ (c ≠ 0b1101 ∧ c ≠ 0b1111) := by
  revert hc
  revert c
  decide

/-- C3 witness: the amended statement at pattern `0b1100`. -/
theorem c3_decode_reserved_witness :
    (12 : Nat) < 16 ∧
    ((codeFromU8 12).isSome = true ↔ ((12 : Nat) ≠ 0b1101 ∧ (12 : Nat) ≠ 0b1111)) :=
  ⟨by decide, c3_decode_reserved 12 (by decide)⟩

/-! ## Claim C4 -/

/-- C4: for every representable `MessageBufferCode` (each of the five
receive states with either busy flag, and each of the four transmit
states), decoding the 4-bit encoding gives back the original code. -/
theorem c4_encode_decode_roundtrip (c : MessageBufferCode) :
    codeFromU8 (codeToU8 c) = some c := by
  rcases c with ⟨s, b⟩ | t
  · cases s <;> cases b <;> decide
  · cases t <;> decide

/-! ## Claim C7 -/

/-- C7: whenever the clock-ratio preconditions fail (`source % can ≠ 0` or
`source < 5 * can`), `init` returns `Err(SettingsError)` — it does not
abort — and the returned state is the untouched input register state (the
checks precede every hardware access).  `can_frequency > 0` is required
because in Rust a zero divisor aborts at the `%` expression itself. -/
theorem c7_settings_error (settings : CanSettings) (mbs : List MailboxHeader)
    (st : RegisterBlock) (hc : 0 < settings.canFrequency)
    (hbad : settings.sourceFrequency % settings.canFrequency ≠ 0 ∨
            settings.sourceFrequency < 5 * settings.canFrequency) :
    init settings mbs st = .err .SettingsError st := by
  unfold init
  rw [if_neg (by omega)]
  rcases hbad with h | h
  · rw [if_pos h]
  · by_cases hmod : settings.sourceFrequency % settings.canFrequency ≠ 0
    · rw [if_pos hmod]
    · rw [if_neg hmod, if_pos (by omega)]

/-- A settings value violating the divisibility precondition. -/
def settingsInvalid : CanSettings :=
  ⟨false, true, false, false, .oscilator, 3, 2⟩

/-- C7 witness: `init` on `settingsInvalid` (3 Hz source, 2 Hz CAN clock)
returns `SettingsError` with the register state untouched. -/
theorem c7_settings_error_witness :
    0 < settingsInvalid.canFrequency ∧
    (settingsInvalid.sourceFrequency % settingsInvalid.canFrequency ≠ 0 ∨
      settingsInvalid.sourceFrequency < 5 * settingsInvalid.canFrequency) ∧
    init settingsInvalid [] zeroRegs = .err .SettingsError zeroRegs :=
  ⟨by decide, Or.inl (by decide),
    c7_settings_error settingsInvalid [] zeroRegs (by decide) (Or.inl (by decide))⟩

/-! ## Claim C8 -/

/-- C8: `receive` on a mailbox whose pending-interrupt flag bit in `iflag1`
is clear returns `MailboxEmpty` with the register state unchanged: the flag
read is the only register access.  The flag bit index is `mailbox as u8`,
and `bit_field` requires it below 32 (the hardware has 32 mailboxes); the
hypothesis states exactly that the mailbox has a flag bit in `iflag1`. -/
theorem c8_receive_mailbox_empty (st : RegisterBlock) (m : Nat)
    (hm : m % 256 < 32) (hflag : getBit st.iflag1 (m % 256) = false) :
    receive st m = .err .MailboxEmpty st := by
  unfold receive
  rw [if_pos hm, hflag]
  rfl

/-- C8 witness: mailbox 0 of the all-zero register block. -/
theorem c8_receive_mailbox_empty_witness :
    (0 : Nat) % 256 < 32 ∧ getBit zeroRegs.iflag1 (0 % 256) = false ∧
    receive zeroRegs 0 = .err .MailboxEmpty zeroRegs :=
  ⟨by decide, by decide,
    c8_receive_mailbox_empty zeroRegs 0 (by decide) (by decide)⟩

/-! ## Claim C9 -/

/-- The non-inactive codes enumerated by the claim: transmit
data/remote-pending, transmit remote-answer-pending, and the receive states
empty, full, overrun and remote-answer (with either busy flag). -/
def busyCodeListed (c : MessageBufferCode) : Prop :=
  c = .transmit .dataRemote ∨ c = .transmit .tanswer ∨
  (∃ b, c = .receive ⟨.empty, b⟩) ∨ (∃ b, c = .receive ⟨.full, b⟩) ∨
  (∃ b, c = .receive ⟨.overrun, b⟩) ∨ (∃ b, c = .receive ⟨.ranswer, b⟩)

/-- C9: `write_mailbox` on a mailbox whose live code decodes to any of the
enumerated non-inactive codes returns `BusyMailboxWriteAttempted` and
leaves every register unchanged (the returned state is the input state):
the mailbox is skipped, never overwritten. -/
theorem c9_write_busy_skip (st : RegisterBlock) (header : MailboxHeader)
    (frame : CanFrame) (m : Nat) (c : MessageBufferCode)
    (hram : m * 4 < 128)
    (hdec : codeFromU8 (getBits (st.ram (m * 4)) 24 28) = some c)
    (hbusy : busyCodeListed c) :
    writeMailbox st header frame m = .err .BusyMailboxWriteAttempted st := by
  unfold writeMailbox
  have hread : (ramRead st (m * 4) : Res CanError Nat) = .ok (st.ram (m * 4)) st := by
    unfold ramRead
    rw [if_pos hram]
  rw [hread]
  show Res.then (decodeCode (getBits (st.ram (m * 4)) 24 28) st) _ = _
  unfold decodeCode
  rw [hdec]
  show (match c with
        | .transmit .dataRemote => Res.err CanError.BusyMailboxWriteAttempted st
        | .transmit .tanswer => .err .BusyMailboxWriteAttempted st
        | .receive ⟨.empty, _⟩ => .err .BusyMailboxWriteAttempted st
        | .receive ⟨.overrun, _⟩ => .err .BusyMailboxWriteAttempted st
        | .receive ⟨.full, _⟩ => .err .BusyMailboxWriteAttempted st
        | .receive ⟨.ranswer, _⟩ => .err .BusyMailboxWriteAttempted st
        | _ => writeMailboxArmed st header frame m) = _
  rcases hbusy with h | h | ⟨b, h⟩ | ⟨b, h⟩ | ⟨b, h⟩ | ⟨b, h⟩ <;> subst h <;> rfl

/-- A register block whose mailbox 0 carries the receive code `Full`
(`0b0010`). -/
def fullCodeRegs : RegisterBlock :=
  { zeroRegs with ram := fun j => if j = 0 then 0x02000000 else 0 }

/-- C9 witness: an attempted write to a `Full` receive mailbox is refused
with the registers untouched. -/
theorem c9_write_busy_skip_witness :
    (0 : Nat) * 4 < 128 ∧
    codeFromU8 (getBits (fullCodeRegs.ram (0 * 4)) 24 28) =
      some (.receive ⟨.full, false⟩) ∧
    busyCodeListed (.receive ⟨.full, false⟩) ∧
    writeMailbox fullCodeRegs transmitHeader filterFrame 0 =
      .err .BusyMailboxWriteAttempted fullCodeRegs :=
  ⟨by decide, by decide,
    Or.inr (Or.inr (Or.inr (Or.inl ⟨false, rfl⟩))),
    c9_write_busy_skip fullCodeRegs transmitHeader filterFrame 0
      (.receive ⟨.full, false⟩) (by decide) (by decide)
      (Or.inr (Or.inr (Or.inr (Or.inl ⟨false, rfl⟩))))⟩

/-! ## Claim C6 -/

/-- `codeFromU8` at the `Transmit(DataRemote)` pattern. -/
theorem codeFromU8_twelve : codeFromU8 0b1100 = some (.transmit .dataRemote) := rfl

/-- If every index the scan will visit carries code `0b1100`
(`Transmit(DataRemote)`), the scan exhausts its range and reports
`BufferFull` with the register state unchanged. -/
theorem transmitScan_all_pending (frame : CanFrame) (st : RegisterBlock) :
    ∀ n i, (∀ k, i ≤ k → k < i + n →
        k * 4 < 128 ∧ getBits (st.ram (k * 4)) 24 28 = 0b1100) →
      transmitScan frame st i n = .err .BufferFull st := by
  intro n
  induction n with
  | zero => intro i _; rfl
  | succ n ih =>
    intro i h
    obtain ⟨hk, hc⟩ := h i (Nat.le_refl i) (by omega)
    show transmitScan frame st i (n + 1) = _
    unfold transmitScan readMailboxCode ramRead decodeCode
    rw [if_pos hk]
    simp only [Res.then, hc, codeFromU8_twelve]
    rw [if_neg (by decide)]
    exact ih (i + 1) (fun k hk1 hk2 => h k (by omega) (by omega))

/-- C6: when every mailbox index in `0 ..= maxmb` holds a live code that
decodes to `Transmit(DataOrRemotePending)`, `transmit` returns
`TransmitError::BufferFull` for every frame, with the register state
unchanged (no mailbox armed); the scan simply runs out of indices, so
nothing blocks. -/
theorem c6_transmit_buffer_full (st : RegisterBlock) (frame : CanFrame)
    (h : ∀ k, k ≤ st.maxmb →
        k * 4 < 128 ∧ getBits (st.ram (k * 4)) 24 28 = 0b1100) :
    transmit st frame = .err .BufferFull st := by
  unfold transmit
  exact transmitScan_all_pending frame st (st.maxmb + 1) 0
    (fun k _ hk2 => h k (by omega))

/-- C6 witness: all 32 mailboxes pending, transmitting a concrete frame. -/
theorem c6_transmit_buffer_full_witness :
    (∀ k, k ≤ allPendingRegs.maxmb →
      k * 4 < 128 ∧ getBits (allPendingRegs.ram (k * 4)) 24 28 = 0b1100) ∧
    transmit allPendingRegs filterFrame = .err .BufferFull allPendingRegs :=
  ⟨by decide, c6_transmit_buffer_full allPendingRegs filterFrame (by decide)⟩

/-! ## Claim C10 -/

/-- C10: `init` performs no validation of the mailbox-header slice length.
With valid frequencies (ratio divisible and at least 8, so that the
bit-timing table succeeds) and an *empty* slice, `init` reaches
`message_buffer_settings.len() as u8 - 1` and aborts on the `u8` underflow
instead of returning a `CanError`; and the `as u8` cast wraps, so a slice
of 257 headers yields the same `maxmb` field value `0` as a 1-header
slice. -/
theorem c10_maxmb_underflow_wrap (settings : CanSettings) (st : RegisterBlock)
    (hc : 0 < settings.canFrequency)
    (hmod : settings.sourceFrequency % settings.canFrequency = 0)
    (h8 : 8 * settings.canFrequency ≤ settings.sourceFrequency) :
    init settings [] st = .fatal .maxmbUnderflow ∧
    maxmbField 0 = none ∧ maxmbField 257 = some 0 := by
  refine ⟨?_, rfl, rfl⟩
  obtain ⟨hlo, hhi⟩ := tqs_in_range _ _ hc hmod h8
  obtain ⟨p2, r, hpr, _⟩ :=
    timing_identity (tqsCalc settings.sourceFrequency settings.canFrequency)
      hlo hhi
  unfold init
  rw [if_neg (by omega), if_neg (by simp [hmod]), if_neg (by omega)]
  simp only [hpr]
  rfl

/-- A settings value satisfying all of C10's frequency hypotheses. -/
def settingsValid : CanSettings :=
  ⟨false, true, false, false, .oscilator, 8000000, 1000000⟩

/-- C10 witness: the statement at `(8 MHz, 1 MHz)` on the zero register
block. -/
theorem c10_maxmb_underflow_wrap_witness :
    0 < settingsValid.canFrequency ∧
    settingsValid.sourceFrequency % settingsValid.canFrequency = 0 ∧
    8 * settingsValid.canFrequency ≤ settingsValid.sourceFrequency ∧
    (init settingsValid [] zeroRegs = .fatal .maxmbUnderflow ∧
      maxmbField 0 = none ∧ maxmbField 257 = some 0) :=
  ⟨by decide, by decide, by decide,
    c10_maxmb_underflow_wrap settingsValid zeroRegs (by decide) (by decide)
      (by decide)⟩

/-! ## Claim C2 -/

/-- Write a frame with the given extended identifier into mailbox 0 of the
zeroed controller via `write_mailbox`, then read the identifier back via
`read_mailbox`. -/
def idRoundTrip (v : Nat) : Option ID :=
  match writeMailbox zeroRegs transmitHeader (.dataFrame ⟨.extended v, []⟩) 0 with
  | .ok _ st =>
    match (readMailbox st 0 : Res CanError (MailboxHeader × CanFrame)) with
    | .ok (_, f) _ => some f.id
    | _ => none
  | _ => none

/-- C2 (evaluation at the failing input): the identifier round-trip is
exact at `0` but NOT at `0x1FFFFFFF`: `write_mailbox` stores the 29-bit
identifier in bits `0..=28` of the ID word, while `read_mailbox` extracts
`get_bits(0..28)`, i.e. bits `0..=27`, so bit 28 is dropped and
`0x1FFFFFFF` reads back as `0x0FFFFFFF`. -/
theorem c2_idword_roundtrip_eval :
    idRoundTrip 0 = some (ID.extended 0) ∧
    idRoundTrip 0x1FFFFFFF = some (ID.extended 0x0FFFFFFF) ∧
    idRoundTrip 0x1FFFFFFF ≠ some (ID.extended 0x1FFFFFFF) := by
  decide

/-! ## Claim C5 -/

/-- `codeFromU8` at the `Transmit(Inactive)` pattern. -/
theorem codeFromU8_eight : codeFromU8 0b1000 = some (.transmit .inactive) := rfl

/-- The frame of claim C5: base identifier `0x123`, payload `[1..8]`. -/
def frame123 : CanFrame := .dataFrame ⟨.base 0x123, [1, 2, 3, 4, 5, 6, 7, 8]⟩

/-- The mailbox RAM after `write_mailbox` arms mailbox 0 with `frame123`:
the control word carries code `0b1100`, SRR, and DLC 8; the ID word has
`0x123` at bits 18..28; payload byte `i` sits at bits
`32-8*(1+i%4) .. 32-8*(i%4)` of word `2 + i/4`; all other words are
untouched. -/
def armedRam (st : RegisterBlock) : Nat → Nat := fun j =>
  if j = 0 then 0x0C480000 else if j = 1 then 0x048C0000
  else if j = 2 then 0x01020304 else if j = 3 then 0x05060708 else st.ram j

/-- The register state after `transmit` selects and arms mailbox 0:
besides the mailbox RAM, the pending-interrupt flag of mailbox 0 has been
cleared. -/
def armedState (st : RegisterBlock) : RegisterBlock :=
  { st with ram := armedRam st, iflag1 := setBit st.iflag1 0 false }

/-- Evaluation of `write_mailbox` for `frame123` into inactive mailbox 0. -/
theorem writeMailbox_frame123 (st : RegisterBlock)
    (h0 : getBits (st.ram 0) 24 28 = 0b1000)
    (hw2 : st.ram 2 < 2 ^ 32) (hw3 : st.ram 3 < 2 ^ 32) :
    writeMailbox st transmitHeader frame123 0 = .ok () (armedState st) := by
  simp [writeMailbox, writeMailboxArmed, ramRead, decodeCode,
    iflagClearBit, ramWrite, writeDataBytes, Res.then, frame123,
    transmitHeader, MailboxHeader.defaultTransmit, CanFrame.id, ID.raw,
    h0, codeFromU8_eight, codeToU8, armedState]
  funext j
  unfold armedRam
  by_cases hj0 : j = 0
  · subst hj0
    norm_num [getBits, setBits, setBit]
  by_cases hj1 : j = 1
  · subst hj1
    norm_num [getBits, setBits, setBit]
  by_cases hj2 : j = 2
  · subst hj2
    simp only [setBits]
    norm_num
    omega
  by_cases hj3 : j = 3
  · subst hj3
    simp only [setBits]
    norm_num
    omega
  · simp [hj0, hj1, hj2, hj3]

/-- Setting a bit makes that bit read back set. -/
theorem getBit_setBit_true (x i : Nat) : getBit (setBit x i true) i = true := by
  have hp : 0 < 2 ^ i := Nat.pos_pow_of_pos i (by norm_num)
  simp only [getBit, setBit, setBits, Nat.add_sub_cancel_left, if_true,
    beq_iff_eq]
  rw [Nat.add_mul_div_left _ _ hp, Nat.div_eq_of_lt (Nat.mod_lt _ hp)]
  norm_num [Nat.add_mul_mod_self_left]

/-- Evaluation of `read_mailbox` on mailbox 0 holding `frame123`. -/
theorem readMailbox_armed (S : RegisterBlock)
    (r0 : S.ram 0 = 0x0C480000) (r1 : S.ram 1 = 0x048C0000)
    (r2 : S.ram 2 = 0x01020304) (r3 : S.ram 3 = 0x05060708) :
    (readMailbox S 0 : Res ReceiveError (MailboxHeader × CanFrame)) =
      .ok (⟨false, .transmit .dataRemote, 0, 0⟩, frame123) (iflagClearBit S 0) := by
  simp [readMailbox, ramRead, decodeCode, busyGate, readDataBytes, Res.then,
    r0, r1, r2, r3, getBit, getBits, frame123, codeFromU8]

/-- C5: transmitting `frame123` (base id `0x123`, payload `[1..8]`) into a
controller whose mailboxes `0 .. maxmb` all carry `Transmit(Inactive)`
arms mailbox 0 — the lowest index — leaving every other mailbox word
untouched, with payload byte `i` at bit offset `32-8*(1+i%4)..32-8*(i%4)`
of data word `2 + i/4` (words `2` and `3` become `0x01020304` and
`0x05060708`); after the hardware raises mailbox 0's interrupt flag,
`receive 0` returns a frame with identifier and payload identical to the
transmitted ones. -/
theorem c5_transmit_receive_roundtrip (st : RegisterBlock)
    (hw : ∀ j, j < 128 → st.ram j < 2 ^ 32)
    (hall : ∀ i, i ≤ st.maxmb → getBits (st.ram (i * 4)) 24 28 = 0b1000) :
    transmit st frame123 = .ok () (armedState st) ∧
    getBits ((armedState st).ram 0) 24 28 = 0b1100 ∧
    (armedState st).ram 2 = 0x01020304 ∧
    (armedState st).ram 3 = 0x05060708 ∧
    (∀ j, 4 ≤ j → (armedState st).ram j = st.ram j) ∧
    ∃ st', receive (raiseFlag (armedState st) 0) 0 = .ok frame123 st' := by
  have h0 : getBits (st.ram 0) 24 28 = 8 := by
    have h := hall 0 (Nat.zero_le _)
    simpa using h
  have hw2 : st.ram 2 < 2 ^ 32 := hw 2 (by norm_num)
  have hw3 : st.ram 3 < 2 ^ 32 := hw 3 (by norm_num)
  refine ⟨?_, by norm_num [armedState, armedRam, getBits], ?_, ?_, ?_, ?_⟩
  · unfold transmit
    show transmitScan frame123 st 0 (st.maxmb + 1) = _
    unfold transmitScan readMailboxCode ramRead decodeCode
    rw [if_pos (by norm_num)]
    simp only [Res.then, Nat.zero_mul, h0, codeFromU8_eight]
    rw [if_pos trivial, writeMailbox_frame123 st h0 hw2 hw3]
  · norm_num [armedState, armedRam]
  · norm_num [armedState, armedRam]
  · intro j hj
    simp [armedState, armedRam, (show j ≠ 0 by omega), (show j ≠ 1 by omega),
      (show j ≠ 2 by omega), (show j ≠ 3 by omega)]
  · refine ⟨iflagClearBit (raiseFlag (armedState st) 0) 0, ?_⟩
    unfold receive
    rw [if_pos (by decide)]
    have hbit : getBit (raiseFlag (armedState st) 0).iflag1 (0 % 256) = true := by
      show getBit (setBit (armedState st).iflag1 0 true) (0 % 256) = true
      exact getBit_setBit_true _ 0
    rw [hbit]
    show (readMailbox (raiseFlag (armedState st) 0) 0).then
        (fun hf st => Res.ok hf.2 st) = _
    rw [readMailbox_armed _ rfl rfl rfl rfl]
    rfl

/-- C5 witness: the statement at the concrete all-inactive 32-mailbox
controller. -/
theorem c5_transmit_receive_roundtrip_witness :
    (∀ j, j < 128 → allInactiveRegs.ram j < 2 ^ 32) ∧
    (∀ i, i ≤ allInactiveRegs.maxmb →
      getBits (allInactiveRegs.ram (i * 4)) 24 28 = 0b1000) ∧
    (transmit allInactiveRegs frame123 = .ok () (armedState allInactiveRegs) ∧
      getBits ((armedState allInactiveRegs).ram 0) 24 28 = 0b1100 ∧
      (armedState allInactiveRegs).ram 2 = 0x01020304 ∧
      (armedState allInactiveRegs).ram 3 = 0x05060708 ∧
      (∀ j, 4 ≤ j → (armedState allInactiveRegs).ram j = allInactiveRegs.ram j) ∧
      ∃ st', receive (raiseFlag (armedState allInactiveRegs) 0) 0 =
        .ok frame123 st') :=
  ⟨by decide, by decide,
    c5_transmit_receive_roundtrip allInactiveRegs (by decide) (by decide)⟩
